import Mathlib

/-!
Verification of the asynchronous image-generation backend of
Nano_Banana_Pro_Web against its specification.

The Go sources embedded here (shallowly, as pure Lean functions):
* `backend/internal/provider/model_resolver.go` — model identifier resolution,
* `backend/internal/provider/provider.go` — provider registry reload,
* `backend/internal/api/websocket.go` — subscriber fan-out and the
  WebSocket handler's terminal-status fast path.

External library behaviour (JSON parsing via `json.Unmarshal`, JSON
serialisation via `json.Marshal`, the database query) is represented by
explicit function / data parameters so that every claim quantifies over
all possible behaviours of the library collaborator.
-/

/-! ## Model resolver (`model_resolver.go`) -/

/-- Go `strings.TrimSpace`: strip leading and trailing whitespace.
Whitespace is modelled by `Char.isWhitespace` (space, tab, CR, LF);
the claims only ever depend on whether the trimmed string is empty. -/
def goTrim (s : String) : String :=
  ⟨((s.data.dropWhile Char.isWhitespace).reverse.dropWhile Char.isWhitespace).reverse⟩

/-- Go `strings.ToLower`, modelled characterwise by `Char.toLower`. -/
def goToLower (s : String) : String :=
  ⟨s.data.map Char.toLower⟩

/-- Go `type ModelPurpose string` with the two declared constants
`PurposeImage = "image"` and `PurposeChat = "chat"`. -/
inductive ModelPurpose where
  | image
  | chat
deriving DecidableEq, Repr

/-- A value stored in the Go `map[string]interface{}` parameters map.
The resolver only ever type-asserts `.(string)`, so the embedding keeps
a string constructor and collapses every non-string value to `other`. -/
inductive ParamValue where
  | str (s : String)
  | other
deriving DecidableEq, Repr

/-- Fields of `model.ProviderConfig` that the provider package reads and
writes (`ProviderName`, `DisplayName`, `APIKey`, `APIBase`, `Enabled`,
`Models`); the `Models` column holds the declared model list as a JSON
string, exactly as in the Go struct. -/
structure ProviderConfig where
  providerName : String
  displayName : String
  apiKey : String
  apiBase : String
  enabled : Bool
  models : String
deriving DecidableEq, Repr

/-- Go `ModelResolveOptions`.  `params` is `none` when the Go map is
`nil`; otherwise it is an association list looked up by key, mirroring
`opts.Params[key]`. -/
structure ModelResolveOptions where
  providerName : String
  purpose : ModelPurpose
  requestModel : String
  params : Option (List (String × ParamValue))
  config : Option ProviderConfig

/-- Go `ModelResolveResult`; the zero value is `⟨"", ""⟩`. -/
structure ModelResolveResult where
  id : String
  source : String
deriving DecidableEq, Repr

/-- One entry of the JSON-decoded declared model list: the anonymous Go
struct `\x7b ID string; Default bool \x7d` in `pickModelFromModels`. -/
structure ModelEntry where
  id : String
  default : Bool
deriving DecidableEq, Repr

/-- The behaviour of `json.Unmarshal` on the declared model list:
`none` models a decoding error, `some entries` a successful decode. -/
abbrev ModelsParser := String → Option (List ModelEntry)

/-- Go map lookup `params[key]` with its presence bit. -/
def lookupParam (params : List (String × ParamValue)) (key : String) : Option ParamValue :=
  (params.find? (fun p => p.1 == key)).map (fun p => p.2)

/-- Go `pickModelFromModels`: trim the stored JSON, give up on empty or
undecodable input, otherwise return the first entry flagged default with
a non-blank id, else the first entry with a non-blank id, else `""`.
The returned id is the entry's id as stored (not re-trimmed), exactly as
in the Go code (`return item.ID`). -/
def pickModelFromModels (parse : ModelsParser) (models : String) : String :=
  let t := goTrim models
  if t = "" then ""
  else
    match parse t with
    | none => ""
    | some parsed =>
      match parsed.find? (fun item => item.default && goTrim item.id != "") with
      | some item => item.id
      | none =>
        match parsed.find? (fun item => goTrim item.id != "") with
        | some item => item.id
        | none => ""

/-- Go `defaultModelForProvider`: the tier-5 hard-coded default, keyed on
purpose and the lowercased, trimmed provider name. -/
def defaultModelForProvider (providerName : String) (purpose : ModelPurpose) : String :=
  let name := goToLower (goTrim providerName)
  if purpose = ModelPurpose.chat ∨ name = "openai-chat" then "gemini-3-flash-preview"
  else "gemini-3-pro-image-preview"

/-- One `opts.Params[key].(string)` block of `ResolveModelID`: the key
must be present, hold a string, and trim to something non-empty; the
trimmed value is returned with source `"params"`. -/
def resolveParamKey (params : List (String × ParamValue)) (key : String) : Option ModelResolveResult :=
  match lookupParam params key with
  | some (ParamValue.str v) => if goTrim v = "" then none else some { id := goTrim v, source := "params" }
  | _ => none

/-- The `if opts.Params != nil` block of `ResolveModelID`: `model_id`
first, then `model`. -/
def resolveFromParams (opts : ModelResolveOptions) : Option ModelResolveResult :=
  match opts.params with
  | none => none
  | some params =>
    match resolveParamKey params "model_id" with
    | some r => some r
    | none => resolveParamKey params "model"

/-- The `if opts.Config != nil` block of `ResolveModelID`: tier 4. -/
def resolveFromConfig (parse : ModelsParser) (opts : ModelResolveOptions) : Option ModelResolveResult :=
  match opts.config with
  | none => none
  | some cfg =>
    let id := pickModelFromModels parse cfg.models
    if id = "" then none else some { id := id, source := "config" }

/-- Go `ResolveModelID`: the five-tier early-return chain, written as a
cascade over the helper blocks above (each helper is one `if` block of
the Go function, in source order). -/
def ResolveModelID (parse : ModelsParser) (opts : ModelResolveOptions) : ModelResolveResult :=
  if goTrim opts.requestModel ≠ "" then { id := goTrim opts.requestModel, source := "request" }
  else
    match resolveFromParams opts with
    | some r => r
    | none =>
      match resolveFromConfig parse opts with
      | some r => r
      | none =>
        let id := defaultModelForProvider opts.providerName opts.purpose
        if id ≠ "" then { id := id, source := "default" }
        else { id := "", source := "" }





/-! ## Provider registry (`provider.go`) -/

/-- The fields of one entry of `config.GlobalConfig.Providers` that
`InitProviders` reads: `Enabled`, `APIKey`, `APIBase`, `ModelID`. -/
structure ExternalProviderConfig where
  enabled : Bool
  apiKey : String
  apiBase : String
  modelID : String
deriving DecidableEq, Repr

/-- Go `BuildModelsJSON`: an empty (after trimming) model id yields `""`;
otherwise a one-element JSON model list flagged default.  The call to
`json.Marshal` is modelled by the `marshal` parameter (it receives the
trimmed model id and produces the serialised list). -/
def BuildModelsJSON (marshal : String → String) (modelID : String) : String :=
  let m := goTrim modelID
  if m = "" then ""
  else marshal m

/-- The built-in provider names seeded by step 0 of `InitProviders`
(`defaultProviders := []string\x7b"gemini", "openai"\x7d`). -/
def defaultProviders : List String := ["gemini", "openai"]

/-- How many stored rows carry the given provider name (the
`Count(&count)` query of step 0 of `InitProviders`). -/
def countName (stored : List ProviderConfig) (name : String) : Nat :=
  (stored.filter (fun c => c.providerName == name)).length

/-- The row created by step 0 of `InitProviders` for an absent built-in
provider name: `model.DB.Create` of a `ProviderConfig` with
`ProviderName` and `DisplayName` set to the name, `Enabled: true`, and
the Go zero value (empty string) for every other field. -/
def seedRow (name : String) : ProviderConfig :=
  { providerName := name, displayName := name, apiKey := "", apiBase := "",
    enabled := true, models := "" }

/-- Step 0 of `InitProviders`: for each built-in provider name with no
stored row, create its seed row; names that already have a row are left
alone. -/
def ensureDefaultProviders (stored : List ProviderConfig) : List ProviderConfig :=
  defaultProviders.foldl
    (fun acc name => if countName acc name = 0 then acc ++ [seedRow name] else acc)
    stored

/-- One iteration of step 1 of `InitProviders` for provider `name` with
external entry `cfg`, given the stored row for that name (`none` models
the `First` query failing with not-found).  Returns the row as stored
after the iteration: skipped entries and the no-op update branch leave
the row unchanged. -/
def syncProviderConfig (marshal : String → String) (name : String)
    (cfg : ExternalProviderConfig) (stored : Option ProviderConfig) :
    Option ProviderConfig :=
  if !cfg.enabled && cfg.apiKey = "" then stored
  else
    match stored with
    | none =>
      some { providerName := name, displayName := name, apiKey := cfg.apiKey,
             apiBase := cfg.apiBase, enabled := true,
             models := if cfg.modelID ≠ "" then BuildModelsJSON marshal cfg.modelID else "" }
    | some dbCfg =>
      if cfg.apiKey ≠ "" ∨ cfg.apiBase ≠ "" ∨ cfg.modelID ≠ "" then
        some { dbCfg with
               apiKey := cfg.apiKey, apiBase := cfg.apiBase, enabled := true,
               models := if cfg.modelID ≠ "" then BuildModelsJSON marshal cfg.modelID
                         else dbCfg.models }
      else some dbCfg

/-- The `switch cfg.ProviderName` of step 3 of `InitProviders`: `none`
models the `default:` branch (no constructor mapping for the name); the
constructors `NewGeminiProvider` / `NewOpenAIProvider` live outside this
package and are passed in as the parameters `newGemini` / `newOpenAI`,
each returning `Except.error` exactly when the Go constructor returns a
non-nil error. -/
def constructProvider {P : Type} (newGemini newOpenAI : ProviderConfig → Except String P)
    (cfg : ProviderConfig) : Option (Except String P) :=
  if cfg.providerName = "gemini" then some (newGemini cfg)
  else if cfg.providerName = "openai" then some (newOpenAI cfg)
  else none

/-- Go map assignment `newRegistry[name] = p` on the association-list
model of the registry (overwrite the entry for the key if present, else
append). -/
def registryInsert {P : Type} : List (String × P) → String → P → List (String × P)
  | [], name, p => [(name, p)]
  | q :: rest, name, p =>
    if q.1 = name then (name, p) :: rest else q :: registryInsert rest name p

/-- The provider names present in a registry. -/
def registryKeys {P : Type} (reg : List (String × P)) : List String :=
  reg.map (fun q => q.1)

/-- One iteration of step 3 of `InitProviders`: a configuration whose
name has no constructor mapping, or whose constructor errors, is
skipped (only logged); a successful construction is stored under the
configuration's provider name. -/
def rebuildStep {P : Type} (newGemini newOpenAI : ProviderConfig → Except String P)
    (reg : List (String × P)) (cfg : ProviderConfig) : List (String × P) :=
  match constructProvider newGemini newOpenAI cfg with
  | none => reg
  | some (Except.error _) => reg
  | some (Except.ok p) => registryInsert reg cfg.providerName p

/-- Step 3 of `InitProviders`: rebuild the registry from the enabled
configurations, starting from the fresh empty `newRegistry`. -/
def rebuildRegistry {P : Type} (newGemini newOpenAI : ProviderConfig → Except String P)
    (finalConfigs : List ProviderConfig) : List (String × P) :=
  finalConfigs.foldl (rebuildStep newGemini newOpenAI) []

/-- Steps 2–4 of `InitProviders`: query the stored configurations with
`enabled = true` (`queryErr` models the database error of that query,
the only error `InitProviders` ever returns), rebuild the registry from
the result, and atomically install it.  The returned value is the error
or the installed registry. -/
def InitProvidersReload {P : Type} (newGemini newOpenAI : ProviderConfig → Except String P)
    (stored : List ProviderConfig) (queryErr : Option String) :
    Except String (List (String × P)) :=
  match queryErr with
  | some e => Except.error e
  | none => Except.ok (rebuildRegistry newGemini newOpenAI (stored.filter (fun c => c.enabled)))

/-! ## WebSocket fan-out (`websocket.go`) -/

/-- A live WebSocket connection handle (`*websocket.Conn`), abstracted
to an identifier. -/
abbrev Conn := Nat

/-- The `TaskSubscriber.subscribers` map `taskID -> connections`,
modelled as an association list whose keys are the map keys and whose
values are the per-task connection sets (a Go `map[*websocket.Conn]bool`
holding `true` for each member, modelled as the list of members). -/
abbrev Subscribers := List (String × List Conn)

/-- Go map read `ts.subscribers[taskID]`: the connection set of the
first entry with that key, or the empty set when the key is absent (a
nil map read). -/
def subsOf (ts : Subscribers) (taskID : String) : List Conn :=
  match ts.find? (fun p => p.1 == taskID) with
  | some p => p.2
  | none => []

/-- Go `ts.subscribers[taskID][conn] = true` on the set model: add the
connection if it is not already a member. -/
def insertConn (conns : List Conn) (conn : Conn) : List Conn :=
  if conn ∈ conns then conns else conns ++ [conn]

/-- Go `Subscribe`: create the per-task set if missing, then add the
connection to it. -/
def Subscribe : Subscribers → String → Conn → Subscribers
  | [], taskID, conn => [(taskID, [conn])]
  | p :: rest, taskID, conn =>
    if p.1 = taskID then (p.1, insertConn p.2 conn) :: rest
    else p :: Subscribe rest taskID conn

/-- Go `Unsubscribe`: if the task has an entry, delete the connection
from its set, and delete the task's entry altogether when the set
becomes empty. -/
def Unsubscribe : Subscribers → String → Conn → Subscribers
  | [], _, _ => []
  | p :: rest, taskID, conn =>
    if p.1 = taskID then
      let conns' := p.2.filter (fun x => x ≠ conn)
      if conns' = [] then rest else (p.1, conns') :: rest
    else p :: Unsubscribe rest taskID conn

/-- One iteration of the delivery loop of Go `Broadcast`: `writeOk`
models the success of `conn.WriteJSON(message)`; a failed write closes
the connection (recorded in the second component) and unsubscribes it
from the live map (first component). -/
def broadcastStep (taskID : String) (writeOk : Conn → Bool)
    (acc : Subscribers × List Conn) (conn : Conn) : Subscribers × List Conn :=
  if writeOk conn then acc
  else (Unsubscribe acc.1 taskID conn, acc.2 ++ [conn])

/-- Go `Broadcast`: snapshot the task's connection set, then attempt
delivery to each connection of the snapshot.  Returns the resulting
subscriber map and the list of connections that were closed. -/
def Broadcast (ts : Subscribers) (taskID : String) (writeOk : Conn → Bool) :
    Subscribers × List Conn :=
  (subsOf ts taskID).foldl (broadcastStep taskID writeOk) (ts, [])

/-- The task ids present as keys of the subscriber map. -/
def subKeys (ts : Subscribers) : List String :=
  ts.map (fun p => p.1)

/-- The subscriber-map invariant of the claim: every task id present as
a key maps to a non-empty connection set. -/
def NonemptySubs (ts : Subscribers) : Prop :=
  ∀ p ∈ ts, p.2 ≠ []


/-! ## WebSocket handler terminal fast path (`websocket.go`) -/

/-- The fields of `model.Task` that `GenerateWSHandler` and
`buildImageInfo` read (named `ModelTask` here because `Task` is taken by
the Lean core library). -/
structure ModelTask where
  taskID : String
  status : String
  totalCount : Int
  errorMessage : String
  localPath : String
  thumbnailPath : String
  imageURL : String
  thumbnailURL : String
  width : Int
  height : Int
deriving DecidableEq, Repr

/-- The map built by Go `buildImageInfo` for the `latestImage` field of
a complete message. -/
structure ImageInfo where
  id : String
  taskId : String
  filePath : String
  thumbnailPath : String
  imageUrl : String
  thumbnailUrl : String
  width : Int
  height : Int
  status : String
deriving DecidableEq, Repr

/-- Go `buildImageInfo`: `nil` (here `none`) when the task has neither a
local path nor a remote URL, otherwise the artifact descriptor. -/
def buildImageInfo (task : ModelTask) : Option ImageInfo :=
  if task.localPath = "" ∧ task.imageURL = "" then none
  else some { id := task.taskID, taskId := task.taskID, filePath := task.localPath,
              thumbnailPath := task.thumbnailPath, imageUrl := task.imageURL,
              thumbnailUrl := task.thumbnailURL, width := task.width,
              height := task.height, status := "success" }

/-- Go `WSProgressMessage`; absent fields take the Go zero values
(`0`, `nil`, `""`), exactly as in the struct literals of the handler. -/
structure WSProgressMessage where
  type : String
  completedCount : Int
  totalCount : Int
  latestImage : Option ImageInfo
  message : String
deriving DecidableEq, Repr

/-- The terminal-status fast path of `GenerateWSHandler`, entered right
after the subscription is registered: for a task already `completed` or
`failed` it sends one message and returns (the deferred `conn.Close()`
and `Unsubscribe` then close the connection); otherwise it proceeds to
the polling loop.  The result is the list of messages written by this
phase and whether the handler goes on to the polling loop (`false`
means the handler returns and the connection is closed). -/
def generateWSInitial (task : ModelTask) : List WSProgressMessage × Bool :=
  if task.status = "completed" then
    ([{ type := "complete", completedCount := task.totalCount,
        totalCount := task.totalCount, latestImage := buildImageInfo task,
        message := "" }], false)
  else if task.status = "failed" then
    ([{ type := "error", completedCount := 0, totalCount := 0,
        latestImage := none, message := task.errorMessage }], false)
  else ([], true)

/-! ## Helper lemmas: model resolver -/

theorem defaultModelForProvider_ne (providerName : String) (purpose : ModelPurpose) :
    defaultModelForProvider providerName purpose ≠ "" := by
  simp only [defaultModelForProvider]
  split <;> decide

theorem resolveParamKey_id_ne {params : List (String × ParamValue)} {key : String}
    {r : ModelResolveResult} (h : resolveParamKey params key = some r) : r.id ≠ "" := by
  unfold resolveParamKey at h
  split at h
  · split at h
    · exact absurd h (by simp)
    · next hne => cases h; simpa using hne
  · exact absurd h (by simp)

theorem resolveFromParams_id_ne {opts : ModelResolveOptions} {r : ModelResolveResult}
    (h : resolveFromParams opts = some r) : r.id ≠ "" := by
  unfold resolveFromParams at h
  split at h
  · exact absurd h (by simp)
  · split at h
    · next r' h' => cases h; exact resolveParamKey_id_ne h'
    · exact resolveParamKey_id_ne h

theorem resolveFromConfig_id_ne {parse : ModelsParser} {opts : ModelResolveOptions}
    {r : ModelResolveResult} (h : resolveFromConfig parse opts = some r) : r.id ≠ "" := by
  simp only [resolveFromConfig] at h
  split at h
  · exact absurd h (by simp)
  · split at h
    · exact absurd h (by simp)
    · next hne => cases h; simpa using hne

theorem ResolveModelID_request {parse : ModelsParser} {opts : ModelResolveOptions}
    (h : goTrim opts.requestModel ≠ "") :
    ResolveModelID parse opts = { id := goTrim opts.requestModel, source := "request" } := by
  simp [ResolveModelID, h]

theorem ResolveModelID_params {parse : ModelsParser} {opts : ModelResolveOptions}
    {r : ModelResolveResult} (h : goTrim opts.requestModel = "")
    (hp : resolveFromParams opts = some r) :
    ResolveModelID parse opts = r := by
  simp [ResolveModelID, h, hp]

theorem ResolveModelID_config {parse : ModelsParser} {opts : ModelResolveOptions}
    {r : ModelResolveResult} (h : goTrim opts.requestModel = "")
    (hp : resolveFromParams opts = none) (hc : resolveFromConfig parse opts = some r) :
    ResolveModelID parse opts = r := by
  simp [ResolveModelID, h, hp, hc]

theorem ResolveModelID_default {parse : ModelsParser} {opts : ModelResolveOptions}
    (h : goTrim opts.requestModel = "") (hp : resolveFromParams opts = none)
    (hc : resolveFromConfig parse opts = none) :
    ResolveModelID parse opts =
      { id := defaultModelForProvider opts.providerName opts.purpose, source := "default" } := by
  simp [ResolveModelID, h, hp, hc, defaultModelForProvider_ne opts.providerName opts.purpose]

/-- C1: `ResolveModelID` returns the first non-empty (after trimming)
value in the strict order request model, params `model_id`, params
`model`, declared model list (default-flagged entry preferred, else the
first entry, blank-id entries skipped), hard-coded per-purpose default;
each lower tier is consulted only when every higher tier is empty or
absent. -/
theorem resolve_precedence (parse : ModelsParser) (opts : ModelResolveOptions) :
    (goTrim opts.requestModel ≠ "" →
       ResolveModelID parse opts = { id := goTrim opts.requestModel, source := "request" })
  ∧ (∀ ps v, goTrim opts.requestModel = "" → opts.params = some ps →
       lookupParam ps "model_id" = some (ParamValue.str v) → goTrim v ≠ "" →
       ResolveModelID parse opts = { id := goTrim v, source := "params" })
  ∧ (∀ ps v, goTrim opts.requestModel = "" → opts.params = some ps →
       resolveParamKey ps "model_id" = none →
       lookupParam ps "model" = some (ParamValue.str v) → goTrim v ≠ "" →
       ResolveModelID parse opts = { id := goTrim v, source := "params" })
  ∧ (∀ cfg, goTrim opts.requestModel = "" → resolveFromParams opts = none →
       opts.config = some cfg → pickModelFromModels parse cfg.models ≠ "" →
       ResolveModelID parse opts =
         { id := pickModelFromModels parse cfg.models, source := "config" })
  ∧ (goTrim opts.requestModel = "" → resolveFromParams opts = none →
       resolveFromConfig parse opts = none →
       ResolveModelID parse opts =
         { id := defaultModelForProvider opts.providerName opts.purpose, source := "default" })
  ∧ (∀ s entries e, goTrim s ≠ "" → parse (goTrim s) = some entries →
       entries.find? (fun item => item.default && goTrim item.id != "") = some e →
       pickModelFromModels parse s = e.id)
  ∧ (∀ s entries e, goTrim s ≠ "" → parse (goTrim s) = some entries →
       entries.find? (fun item => item.default && goTrim item.id != "") = none →
       entries.find? (fun item => goTrim item.id != "") = some e →
       pickModelFromModels parse s = e.id) := by
  refine ⟨fun h => ResolveModelID_request h, ?_, ?_, ?_, ?_, ?_, ?_⟩
  · intro ps v h hps hl hv
    have hk : resolveParamKey ps "model_id" = some { id := goTrim v, source := "params" } := by
      simp [resolveParamKey, hl, hv]
    exact ResolveModelID_params h (by simp [resolveFromParams, hps, hk])
  · intro ps v h hps hk1 hl hv
    have hk : resolveParamKey ps "model" = some { id := goTrim v, source := "params" } := by
      simp [resolveParamKey, hl, hv]
    exact ResolveModelID_params h (by simp [resolveFromParams, hps, hk1, hk])
  · intro cfg h hp hcfg hpick
    exact ResolveModelID_config h hp (by simp [resolveFromConfig, hcfg, hpick])
  · exact fun h hp hc => ResolveModelID_default h hp hc
  · intro s entries e hs hp he
    simp [pickModelFromModels, hs, hp, he]
  · intro s entries e hs hp hn he
    simp [pickModelFromModels, hs, hp, hn, he]

/-- C1 witness: with a blank request model, the `model_id` parameter
`" y "` resolves to `y` with source `params`. -/
theorem resolve_precedence_witness :
    ResolveModelID (fun _ => none)
      { providerName := "gemini", purpose := ModelPurpose.image, requestModel := " ",
        params := some [("model_id", ParamValue.str " y ")], config := none }
      = { id := "y", source := "params" } := by
  have h := (resolve_precedence (fun _ => none)
    { providerName := "gemini", purpose := ModelPurpose.image, requestModel := " ",
      params := some [("model_id", ParamValue.str " y ")], config := none }).2.1
    [("model_id", ParamValue.str " y ")] " y " (by decide) rfl (by decide) (by decide)
  exact h.trans (by decide)

/-- C9: once resolution reaches tier 5 (request model blank, parameter
tiers empty, config tier empty), the result is the hard-coded default:
the flash-tier model for chat purpose or a provider whose lowercased,
trimmed name is `openai-chat`, and the pro-tier image model otherwise,
always with source `default`. -/
theorem resolve_default_per_purpose (parse : ModelsParser) (opts : ModelResolveOptions)
    (h1 : goTrim opts.requestModel = "") (h2 : resolveFromParams opts = none)
    (h3 : resolveFromConfig parse opts = none) :
    ResolveModelID parse opts =
      { id := if opts.purpose = ModelPurpose.chat ∨
                 goToLower (goTrim opts.providerName) = "openai-chat"
              then "gemini-3-flash-preview" else "gemini-3-pro-image-preview",
        source := "default" } := by
  rw [ResolveModelID_default h1 h2 h3]
  simp only [defaultModelForProvider]

/-- C9 witness: provider name `" OpenAI-Chat "` with image purpose and
every higher tier empty resolves to the flash-tier default. -/
theorem resolve_default_per_purpose_witness :
    ResolveModelID (fun _ => none)
      { providerName := " OpenAI-Chat ", purpose := ModelPurpose.image,
        requestModel := "", params := none, config := none }
      = { id := "gemini-3-flash-preview", source := "default" } := by
  have h := resolve_default_per_purpose (fun _ => none)
    { providerName := " OpenAI-Chat ", purpose := ModelPurpose.image,
      requestModel := "", params := none, config := none }
    (by decide) rfl rfl
  exact h.trans (by decide)

/-- C10: the resolver's result always carries a non-empty model id, for
every parser behaviour and every input, because tier 5 is non-empty for
every provider name and purpose; the spec's `unresolved` empty result is
unreachable. -/
theorem resolve_id_never_empty (parse : ModelsParser) (opts : ModelResolveOptions) :
    (ResolveModelID parse opts).id ≠ "" := by
  by_cases h1 : goTrim opts.requestModel = ""
  · cases hp : resolveFromParams opts with
    | some r => rw [ResolveModelID_params h1 hp]; exact resolveFromParams_id_ne hp
    | none =>
      cases hc : resolveFromConfig parse opts with
      | some r => rw [ResolveModelID_config h1 hp hc]; exact resolveFromConfig_id_ne hc
      | none => rw [ResolveModelID_default h1 hp hc]; exact defaultModelForProvider_ne _ _
  · rw [ResolveModelID_request h1]; simpa using h1

/-- C10 witness: the fully-empty input still resolves to a non-empty id. -/
theorem resolve_id_never_empty_witness :
    (ResolveModelID (fun _ => none)
      { providerName := "", purpose := ModelPurpose.image, requestModel := "",
        params := none, config := none }).id ≠ "" :=
  resolve_id_never_empty (fun _ => none)
    { providerName := "", purpose := ModelPurpose.image, requestModel := "",
      params := none, config := none }

/-- C6: a declared model list that is non-empty after trimming but fails
to decode yields nothing from tier 4 — no error, and resolution behaves
exactly as if the configuration declared no models, so with the higher
tiers empty it falls through to the tier-5 hard-coded default. -/
theorem malformed_models_fall_through (parse : ModelsParser) (opts : ModelResolveOptions)
    (cfg : ProviderConfig) (h1 : goTrim cfg.models ≠ "")
    (h2 : parse (goTrim cfg.models) = none) (hc : opts.config = some cfg) :
    pickModelFromModels parse cfg.models = ""
  ∧ ResolveModelID parse opts =
      ResolveModelID parse { opts with config := some { cfg with models := "" } }
  ∧ (goTrim opts.requestModel = "" → resolveFromParams opts = none →
       ResolveModelID parse opts =
         { id := defaultModelForProvider opts.providerName opts.purpose, source := "default" }) := by
  have hpick : pickModelFromModels parse cfg.models = "" := by
    simp [pickModelFromModels, h1, h2]
  have hcfg : resolveFromConfig parse opts = none := by
    simp [resolveFromConfig, hc, hpick]
  have hcfg' : resolveFromConfig parse { opts with config := some { cfg with models := "" } }
      = none := by
    have : goTrim "" = "" := rfl
    simp [resolveFromConfig, pickModelFromModels, this]
  have hparams : resolveFromParams { opts with config := some { cfg with models := "" } }
      = resolveFromParams opts := rfl
  refine ⟨hpick, ?_, fun h hp => ResolveModelID_default h hp hcfg⟩
  by_cases h1r : goTrim opts.requestModel = ""
  · cases hp : resolveFromParams opts with
    | some r =>
      exact (ResolveModelID_params h1r hp).trans
        (@ResolveModelID_params parse { opts with config := some { cfg with models := "" } } r
          h1r (hparams.trans hp)).symm
    | none =>
      exact (ResolveModelID_default h1r hp hcfg).trans
        (@ResolveModelID_default parse { opts with config := some { cfg with models := "" } }
          h1r (hparams.trans hp) hcfg').symm
  · exact (ResolveModelID_request h1r).trans
      (@ResolveModelID_request parse { opts with config := some { cfg with models := "" } }
        h1r).symm

/-- C6 witness: the undecodable declared list `not json` is skipped and
resolution lands on the tier-5 default. -/
theorem malformed_models_fall_through_witness :
    pickModelFromModels (fun _ => none) "not json" = ""
  ∧ ResolveModelID (fun _ => none)
      { providerName := "gemini", purpose := ModelPurpose.image, requestModel := "",
        params := none,
        config := some { providerName := "gemini", displayName := "gemini", apiKey := "",
                         apiBase := "", enabled := true, models := "not json" } }
      = { id := "gemini-3-pro-image-preview", source := "default" } := by
  have h := malformed_models_fall_through (fun _ => none)
    { providerName := "gemini", purpose := ModelPurpose.image, requestModel := "",
      params := none,
      config := some { providerName := "gemini", displayName := "gemini", apiKey := "",
                       apiBase := "", enabled := true, models := "not json" } }
    { providerName := "gemini", displayName := "gemini", apiKey := "",
      apiBase := "", enabled := true, models := "not json" }
    (by decide) rfl rfl
  exact ⟨h.1, (h.2.2 rfl rfl).trans (by decide)⟩

/-- C2: a subscription opened on a task whose persisted status is
already terminal is sent exactly one message — the complete shape for
`completed`, the error shape carrying the task's error message for
`failed` — and the handler returns without entering the polling loop,
so the deferred close shuts the connection and no progress or further
message can follow on it. -/
theorem ws_terminal_single_message (task : ModelTask)
    (h : task.status = "completed" ∨ task.status = "failed") :
    ((generateWSInitial task).1.length = 1 ∧ (generateWSInitial task).2 = false)
  ∧ (task.status = "completed" →
       (generateWSInitial task).1 =
         [{ type := "complete", completedCount := task.totalCount,
            totalCount := task.totalCount, latestImage := buildImageInfo task,
            message := "" }])
  ∧ (task.status = "failed" →
       (generateWSInitial task).1 =
         [{ type := "error", completedCount := 0, totalCount := 0,
            latestImage := none, message := task.errorMessage }])
  ∧ (∀ m ∈ (generateWSInitial task).1, m.type ≠ "progress") := by
  rcases h with h | h <;> simp [generateWSInitial, h]

/-- C2 witness: a subscriber joining a task already failed with message
`rate limited` gets exactly that one error message and no loop. -/
theorem ws_terminal_single_message_witness :
    (generateWSInitial
        { taskID := "t1", status := "failed", totalCount := 3,
          errorMessage := "rate limited", localPath := "", thumbnailPath := "",
          imageURL := "", thumbnailURL := "", width := 0, height := 0 }).1 =
      [{ type := "error", completedCount := 0, totalCount := 0,
         latestImage := none, message := "rate limited" }]
  ∧ (generateWSInitial
        { taskID := "t1", status := "failed", totalCount := 3,
          errorMessage := "rate limited", localPath := "", thumbnailPath := "",
          imageURL := "", thumbnailURL := "", width := 0, height := 0 }).2 = false := by
  have h := ws_terminal_single_message
    { taskID := "t1", status := "failed", totalCount := 3,
      errorMessage := "rate limited", localPath := "", thumbnailPath := "",
      imageURL := "", thumbnailURL := "", width := 0, height := 0 }
    (Or.inr rfl)
  exact ⟨h.2.2.1 rfl, h.1.2⟩

/-! ## Helper lemmas: provider seeding -/

theorem countName_append (s t : List ProviderConfig) (name : String) :
    countName (s ++ t) name = countName s name + countName t name := by
  simp [countName, List.filter_append]

/-- C5 counterexample: seeding into an empty store creates both built-in
rows with the enabled flag `true`, not `false` as the claim states. -/
theorem seed_enabled_counterexample :
    (ensureDefaultProviders []).map (fun c => (c.providerName, c.enabled))
      = [("gemini", true), ("openai", true)]
  ∧ ¬ (∀ c ∈ ensureDefaultProviders [], c.enabled = false) := by
  constructor
  · decide
  · intro h
    have := h (seedRow "gemini") (by decide)
    simp [seedRow] at this

/-- C5 (amended): during reload, each built-in provider name with no
stored row is created as a new row with the enabled flag set to `true`
(enabled-by-default) and zero values elsewhere, and the seeding step
appends only such rows — every pre-existing row is left untouched and
built-in names that already have a row get nothing appended for them. -/
theorem ensure_defaults_enabled_rows (stored : List ProviderConfig) :
    ∃ added,
      ensureDefaultProviders stored = stored ++ added
      ∧ (∀ r ∈ added, r.enabled = true ∧ r.displayName = r.providerName ∧ r.apiKey = ""
           ∧ r.apiBase = "" ∧ r.models = "" ∧ r.providerName ∈ defaultProviders
           ∧ countName stored r.providerName = 0)
      ∧ (∀ name ∈ defaultProviders, countName stored name = 0 →
           ∃ r ∈ added, r.providerName = name) := by
  have hGO : countName (stored ++ [seedRow "gemini"]) "openai" = countName stored "openai" := by
    rw [countName_append]
    have : countName [seedRow "gemini"] "openai" = 0 := by decide
    omega
  unfold ensureDefaultProviders defaultProviders
  simp only [List.foldl_cons, List.foldl_nil]
  by_cases hg : countName stored "gemini" = 0
  · rw [if_pos hg]
    by_cases ho : countName stored "openai" = 0
    · rw [if_pos (hGO.trans ho)]
      refine ⟨[seedRow "gemini", seedRow "openai"], by simp, ?_, ?_⟩
      · intro r hr
        rcases List.mem_cons.mp hr with h | h
        · subst h; exact ⟨rfl, rfl, rfl, rfl, rfl, by decide, hg⟩
        · rcases List.mem_cons.mp h with h | h
          · subst h; exact ⟨rfl, rfl, rfl, rfl, rfl, by decide, ho⟩
          · simp at h
      · intro name hn h0
        rcases List.mem_cons.mp hn with h | h
        · exact ⟨seedRow "gemini", by simp, by rw [h]; rfl⟩
        · rcases List.mem_cons.mp h with h | h
          · exact ⟨seedRow "openai", by simp, by rw [h]; rfl⟩
          · simp at h
    · rw [if_neg (fun hc => ho (hGO.symm.trans hc))]
      refine ⟨[seedRow "gemini"], rfl, ?_, ?_⟩
      · intro r hr
        rcases List.mem_cons.mp hr with h | h
        · subst h; exact ⟨rfl, rfl, rfl, rfl, rfl, by decide, hg⟩
        · simp at h
      · intro name hn h0
        rcases List.mem_cons.mp hn with h | h
        · exact ⟨seedRow "gemini", by simp, by rw [h]; rfl⟩
        · rcases List.mem_cons.mp h with h | h
          · subst h; exact absurd h0 ho
          · simp at h
  · rw [if_neg hg]
    by_cases ho : countName stored "openai" = 0
    · rw [if_pos ho]
      refine ⟨[seedRow "openai"], rfl, ?_, ?_⟩
      · intro r hr
        rcases List.mem_cons.mp hr with h | h
        · subst h; exact ⟨rfl, rfl, rfl, rfl, rfl, by decide, ho⟩
        · simp at h
      · intro name hn h0
        rcases List.mem_cons.mp hn with h | h
        · subst h; exact absurd h0 hg
        · rcases List.mem_cons.mp h with h | h
          · exact ⟨seedRow "openai", by simp, by rw [h]; rfl⟩
          · simp at h
    · rw [if_neg ho]
      refine ⟨[], by simp, by simp, ?_⟩
      intro name hn h0
      rcases List.mem_cons.mp hn with h | h
      · subst h; exact absurd h0 hg
      · rcases List.mem_cons.mp h with h | h
        · subst h; exact absurd h0 ho
        · simp at h

/-- C5 witness: seeding an empty store appends exactly the two enabled
built-in rows. -/
theorem ensure_defaults_enabled_rows_witness :
    ∃ added,
      ensureDefaultProviders [] = [] ++ added
      ∧ (∀ r ∈ added, r.enabled = true ∧ r.displayName = r.providerName ∧ r.apiKey = ""
           ∧ r.apiBase = "" ∧ r.models = "" ∧ r.providerName ∈ defaultProviders
           ∧ countName [] r.providerName = 0)
      ∧ (∀ name ∈ defaultProviders, countName [] name = 0 →
           ∃ r ∈ added, r.providerName = name) :=
  ensure_defaults_enabled_rows []

/-- C7 counterexample: an external entry with explicit enable but empty
credential, base URL and model id is processed (not skipped), yet the
merge leaves the stored row entirely untouched — in particular it does
not force the enabled flag, contradicting the claim that every
processed entry with an empty model identifier gets credential/base-URL
updates and a forced enable. -/
theorem sync_no_force_enabled_counterexample :
    ((⟨true, "", "", ""⟩ : ExternalProviderConfig).enabled = true
      ∧ (⟨true, "", "", ""⟩ : ExternalProviderConfig).modelID = "")
  ∧ (syncProviderConfig (fun s => s) "gemini" ⟨true, "", "", ""⟩
        (some ⟨"gemini", "gemini", "old-key", "", false, ""⟩)).map (fun c => c.enabled)
      = some false := by decide

/-- C7 (amended): for every externally configured entry whose model
identifier is empty, the merge never changes the stored model list (the
`models` key is added to the update only for a non-empty external model
id); when additionally the entry's credential or base URL is non-empty
the merge updates those fields and forces enabled, but when credential,
base URL and model id are all empty the stored row is left entirely
untouched (enabled included). -/
theorem sync_empty_model_frame (marshal : String → String) (name : String)
    (cfg : ExternalProviderConfig) (db : ProviderConfig) (hm : cfg.modelID = "") :
    (syncProviderConfig marshal name cfg (some db)).map (fun c => c.models) = some db.models
  ∧ ((cfg.enabled = true ∨ cfg.apiKey ≠ "") → (cfg.apiKey ≠ "" ∨ cfg.apiBase ≠ "") →
       syncProviderConfig marshal name cfg (some db) =
         some { db with apiKey := cfg.apiKey, apiBase := cfg.apiBase, enabled := true })
  ∧ (cfg.apiKey = "" → cfg.apiBase = "" →
       syncProviderConfig marshal name cfg (some db) = some db) := by
  refine ⟨?_, ?_, ?_⟩
  · unfold syncProviderConfig
    split
    · rfl
    · dsimp only
      split
      · simp [hm]
      · rfl
  · intro hproc hne
    have hskip : (!cfg.enabled && decide (cfg.apiKey = "")) = false := by
      rcases hproc with h | h
      · simp [h]
      · simp [h]
    have hcond : cfg.apiKey ≠ "" ∨ cfg.apiBase ≠ "" ∨ cfg.modelID ≠ "" := by
      rcases hne with h | h
      · exact Or.inl h
      · exact Or.inr (Or.inl h)
    unfold syncProviderConfig
    rw [hskip]
    simp only [Bool.false_eq_true, if_false]
    rw [if_pos hcond]
    simp [hm]
  · intro hk hb
    unfold syncProviderConfig
    split
    · rfl
    · dsimp only
      simp [hk, hb, hm]

/-- C7 witness: merging an external entry with a credential but empty
model id into a stored row keeps the stored model list `[saved]` while
updating the credential and forcing enabled. -/
theorem sync_empty_model_frame_witness :
    (syncProviderConfig (fun s => s) "gemini" ⟨true, "k", "", ""⟩
        (some ⟨"gemini", "gemini", "", "", false, "[saved]"⟩)).map (fun c => c.models)
      = some "[saved]"
  ∧ syncProviderConfig (fun s => s) "gemini" ⟨true, "k", "", ""⟩
        (some ⟨"gemini", "gemini", "", "", false, "[saved]"⟩)
      = some ⟨"gemini", "gemini", "k", "", true, "[saved]"⟩ := by
  have h := sync_empty_model_frame (fun s => s) "gemini" ⟨true, "k", "", ""⟩
    ⟨"gemini", "gemini", "", "", false, "[saved]"⟩ rfl
  exact ⟨h.1, (h.2.1 (Or.inl rfl) (Or.inl (by decide))).trans (by decide)⟩

/-! ## Helper lemmas: subscriber fan-out -/

theorem subsOf_cons_self {p : String × List Conn} {rest : Subscribers} {t : String}
    (h : p.1 = t) : subsOf (p :: rest) t = p.2 := by
  simp [subsOf, List.find?_cons_of_pos, h]

theorem subsOf_cons_ne {p : String × List Conn} {rest : Subscribers} {t : String}
    (h : p.1 ≠ t) : subsOf (p :: rest) t = subsOf rest t := by
  have : (p.1 == t) = false := by simpa using h
  simp [subsOf, List.find?_cons_of_neg, this]

theorem subsOf_not_mem {ts : Subscribers} {t : String} (h : t ∉ subKeys ts) :
    subsOf ts t = [] := by
  induction ts with
  | nil => rfl
  | cons p rest ih =>
    simp only [subKeys, List.map_cons, List.mem_cons] at h
    push_neg at h
    rw [subsOf_cons_ne (fun hp => h.1 hp.symm)]
    exact ih (by simpa [subKeys] using h.2)

theorem insertConn_ne_nil (conns : List Conn) (c : Conn) : insertConn conns c ≠ [] := by
  unfold insertConn
  split
  · next h => exact List.ne_nil_of_mem h
  · simp

theorem nonempty_Subscribe (ts : Subscribers) (t : String) (c : Conn)
    (h : NonemptySubs ts) : NonemptySubs (Subscribe ts t c) := by
  induction ts with
  | nil =>
    intro p hp
    simp only [Subscribe, List.mem_singleton] at hp
    subst hp
    simp
  | cons q rest ih =>
    intro p hp
    simp only [Subscribe] at hp
    by_cases hq : q.1 = t
    · rw [if_pos hq] at hp
      rcases List.mem_cons.mp hp with h1 | h1
      · subst h1; exact insertConn_ne_nil q.2 c
      · exact h p (List.mem_cons_of_mem _ h1)
    · rw [if_neg hq] at hp
      rcases List.mem_cons.mp hp with h1 | h1
      · subst h1; exact h p (List.mem_cons_self _ _)
      · exact ih (fun r hr => h r (List.mem_cons_of_mem _ hr)) p h1

theorem nonempty_Unsubscribe (ts : Subscribers) (t : String) (c : Conn)
    (h : NonemptySubs ts) : NonemptySubs (Unsubscribe ts t c) := by
  induction ts with
  | nil => intro p hp; simp [Unsubscribe] at hp
  | cons q rest ih =>
    intro p hp
    simp only [Unsubscribe] at hp
    by_cases hq : q.1 = t
    · rw [if_pos hq] at hp
      split at hp
      · exact h p (List.mem_cons_of_mem _ hp)
      · next hfil =>
        rcases List.mem_cons.mp hp with h1 | h1
        · subst h1; exact hfil
        · exact h p (List.mem_cons_of_mem _ h1)
    · rw [if_neg hq] at hp
      rcases List.mem_cons.mp hp with h1 | h1
      · subst h1; exact h p (List.mem_cons_self _ _)
      · exact ih (fun r hr => h r (List.mem_cons_of_mem _ hr)) p h1

theorem subKeys_Unsubscribe_sublist (ts : Subscribers) (t : String) (c : Conn) :
    (subKeys (Unsubscribe ts t c)).Sublist (subKeys ts) := by
  induction ts with
  | nil => simp [Unsubscribe]
  | cons q rest ih =>
    simp only [Unsubscribe]
    by_cases hq : q.1 = t
    · rw [if_pos hq]
      split
      · exact List.Sublist.cons _ (List.Sublist.refl _)
      · simp [subKeys]
    · rw [if_neg hq]
      simp only [subKeys, List.map_cons]
      exact List.Sublist.cons₂ _ ih

theorem nodup_Unsubscribe {ts : Subscribers} (t : String) (c : Conn)
    (h : (subKeys ts).Nodup) : (subKeys (Unsubscribe ts t c)).Nodup :=
  (subKeys_Unsubscribe_sublist ts t c).nodup h

theorem subsOf_Unsubscribe (ts : Subscribers) (t : String) (c : Conn)
    (hnd : (subKeys ts).Nodup) :
    subsOf (Unsubscribe ts t c) t = (subsOf ts t).filter (fun x => x ≠ c) := by
  induction ts with
  | nil => rfl
  | cons p rest ih =>
    have hnd' : (subKeys rest).Nodup := (List.nodup_cons.mp hnd).2
    simp only [Unsubscribe]
    by_cases hp : p.1 = t
    · rw [if_pos hp]
      rw [subsOf_cons_self hp]
      split
      · next hfil =>
        have hmem : t ∉ subKeys rest := by
          have := (List.nodup_cons.mp hnd).1
          simpa [subKeys, hp] using this
        rw [subsOf_not_mem hmem, hfil]
      · exact subsOf_cons_self hp
    · rw [if_neg hp, subsOf_cons_ne hp, subsOf_cons_ne hp]
      exact ih hnd'

theorem nonempty_broadcast_fold (t : String) (writeOk : Conn → Bool) (l : List Conn) :
    ∀ acc : Subscribers × List Conn, NonemptySubs acc.1 →
      NonemptySubs ((l.foldl (broadcastStep t writeOk) acc).1) := by
  induction l with
  | nil => intro acc h; exact h
  | cons a rest ih =>
    intro acc h
    simp only [List.foldl_cons, broadcastStep]
    by_cases ha : writeOk a = true
    · rw [if_pos ha]; exact ih acc h
    · rw [if_neg ha]; exact ih _ (nonempty_Unsubscribe _ _ _ h)

theorem broadcast_fold_spec (t : String) (writeOk : Conn → Bool) (l : List Conn) :
    ∀ acc : Subscribers × List Conn, (subKeys acc.1).Nodup →
      subsOf ((l.foldl (broadcastStep t writeOk) acc).1) t
          = (subsOf acc.1 t).filter (fun x => writeOk x || !(l.contains x))
      ∧ ((l.foldl (broadcastStep t writeOk) acc).2
          = acc.2 ++ l.filter (fun x => !writeOk x)) := by
  induction l with
  | nil =>
    intro acc hnd
    constructor
    · simp
    · simp
  | cons a rest ih =>
    intro acc hnd
    simp only [List.foldl_cons, broadcastStep]
    by_cases ha : writeOk a = true
    · rw [if_pos ha]
      obtain ⟨h1, h2⟩ := ih acc hnd
      constructor
      · rw [h1]
        apply List.filter_congr
        intro x hx
        by_cases hxa : x = a
        · subst hxa; simp [ha]
        · simp [List.contains_cons, hxa]
      · rw [h2]
        simp [ha]
    · rw [if_neg ha]
      have hnd' : (subKeys (Unsubscribe acc.1 t a)).Nodup := nodup_Unsubscribe t a hnd
      obtain ⟨h1, h2⟩ := ih (Unsubscribe acc.1 t a, acc.2 ++ [a]) hnd'
      constructor
      · rw [h1]
        dsimp only
        rw [subsOf_Unsubscribe acc.1 t a hnd, List.filter_filter]
        apply List.filter_congr
        intro x hx
        by_cases hxa : x = a
        · subst hxa
          simp [ha, List.contains_cons]
        · simp [List.contains_cons, hxa]
      · rw [h2]
        dsimp only
        have hfa : writeOk a = false := by
          cases hw : writeOk a
          · rfl
          · exact absurd hw ha
        simp [List.filter_cons, hfa]

theorem unsubscribe_deletes_key (ts : Subscribers) (t : String) (c : Conn)
    (hnd : (subKeys ts).Nodup) (h : (subsOf ts t).filter (fun x => x ≠ c) = []) :
    t ∉ subKeys (Unsubscribe ts t c) := by
  induction ts with
  | nil => simp [Unsubscribe, subKeys]
  | cons p rest ih =>
    have hnd' : (subKeys rest).Nodup := (List.nodup_cons.mp hnd).2
    simp only [Unsubscribe]
    by_cases hp : p.1 = t
    · rw [if_pos hp]
      rw [subsOf_cons_self hp] at h
      rw [if_pos h]
      have := (List.nodup_cons.mp hnd).1
      simpa [subKeys, hp] using this
    · rw [if_neg hp]
      rw [subsOf_cons_ne hp] at h
      simp only [subKeys, List.map_cons, List.mem_cons]
      push_neg
      exact ⟨fun ht => hp ht.symm, ih hnd' h⟩

/-- C8: every task id present as a key of the subscriber map holds a
non-empty connection set; the empty map satisfies this, and the
invariant is preserved by `Subscribe`, `Unsubscribe` and `Broadcast`
(including its failure-driven unsubscriptions); moreover, when removing
a connection empties a task's set, `Unsubscribe` deletes the task's
entry from the map within that same operation. -/
theorem subscriber_map_invariant (ts : Subscribers) (taskID : String) (conn : Conn)
    (writeOk : Conn → Bool) (h : NonemptySubs ts) :
    NonemptySubs ([] : Subscribers)
  ∧ NonemptySubs (Subscribe ts taskID conn)
  ∧ NonemptySubs (Unsubscribe ts taskID conn)
  ∧ NonemptySubs (Broadcast ts taskID writeOk).1
  ∧ ((subKeys ts).Nodup → (subsOf ts taskID).filter (fun x => x ≠ conn) = [] →
       taskID ∉ subKeys (Unsubscribe ts taskID conn)) := by
  refine ⟨?_, nonempty_Subscribe ts taskID conn h,
    nonempty_Unsubscribe ts taskID conn h, ?_,
    fun hnd hfil => unsubscribe_deletes_key ts taskID conn hnd hfil⟩
  · intro p hp; simp at hp
  · unfold Broadcast
    exact nonempty_broadcast_fold taskID writeOk (subsOf ts taskID) (ts, []) h

/-- C8 witness: the invariant holds concretely for the map with one
task `t1` subscribed by connection 7: subscribing 7, unsubscribing 7
(which empties and deletes the entry) and a broadcast whose write to 7
fails all preserve it. -/
theorem subscriber_map_invariant_witness :
    NonemptySubs ([] : Subscribers)
  ∧ NonemptySubs (Subscribe [("t1", [7])] "t1" 7)
  ∧ NonemptySubs (Unsubscribe [("t1", [7])] "t1" 7)
  ∧ NonemptySubs (Broadcast [("t1", [7])] "t1" (fun _ => false)).1
  ∧ ((subKeys [("t1", [7])]).Nodup →
       (subsOf [("t1", [7])] "t1").filter (fun x => x ≠ 7) = [] →
       "t1" ∉ subKeys (Unsubscribe [("t1", [7])] "t1" 7)) :=
  subscriber_map_invariant [("t1", [7])] "t1" 7 (fun _ => false)
    (by intro p hp; simp at hp; simp [hp])

/-- C3: broadcasting to a task's subscribers prunes, within that same
broadcast call, every subscribed handle whose delivery fails — the
handle is closed (appears in the closed list) and is no longer in the
task's subscriber set, so a later broadcast never attempts it again —
while every handle whose delivery succeeds stays subscribed. -/
theorem broadcast_prunes_failed (ts : Subscribers) (taskID : String)
    (writeOk : Conn → Bool) (conn : Conn)
    (hnd : (subKeys ts).Nodup) (hmem : conn ∈ subsOf ts taskID) :
    (writeOk conn = false →
       conn ∉ subsOf (Broadcast ts taskID writeOk).1 taskID
       ∧ conn ∈ (Broadcast ts taskID writeOk).2)
  ∧ (writeOk conn = true → conn ∈ subsOf (Broadcast ts taskID writeOk).1 taskID)
  ∧ (∀ ts2 ok2, (subKeys ts2).Nodup → conn ∉ subsOf ts2 taskID →
       conn ∉ subsOf (Broadcast ts2 taskID ok2).1 taskID) := by
  obtain ⟨h1, h2⟩ :=
    broadcast_fold_spec taskID writeOk (subsOf ts taskID) (ts, []) hnd
  have hbc1 : subsOf (Broadcast ts taskID writeOk).1 taskID
      = (subsOf ts taskID).filter
          (fun x => writeOk x || !((subsOf ts taskID).contains x)) := h1
  have hbc2 : (Broadcast ts taskID writeOk).2
      = (subsOf ts taskID).filter (fun x => !writeOk x) := h2
  refine ⟨?_, ?_, ?_⟩
  · intro hfail
    constructor
    · rw [hbc1]
      intro hin
      have hpred := (List.mem_filter.mp hin).2
      have hc : (subsOf ts taskID).contains conn = true :=
        List.elem_eq_true_of_mem hmem
      simp [hfail, hc] at hpred
      exact hpred hmem
    · rw [hbc2]
      exact List.mem_filter.mpr ⟨hmem, by simp [hfail]⟩
  · intro hok
    rw [hbc1]
    exact List.mem_filter.mpr ⟨hmem, by simp [hok]⟩
  · intro ts2 ok2 hnd2 hnotin
    obtain ⟨g1, _⟩ := broadcast_fold_spec taskID ok2 (subsOf ts2 taskID) (ts2, []) hnd2
    have : subsOf (Broadcast ts2 taskID ok2).1 taskID
        = (subsOf ts2 taskID).filter
            (fun x => ok2 x || !((subsOf ts2 taskID).contains x)) := g1
    rw [this]
    intro hin
    exact hnotin (List.mem_filter.mp hin).1

/-- C3 witness: broadcasting to task `t1` with subscribers 7, 8, 9 where
the write to 8 fails removes 8 (and closes it) and keeps 7 and 9. -/
theorem broadcast_prunes_failed_witness :
    (8 ∉ subsOf (Broadcast [("t1", [7, 8, 9])] "t1" (fun c => c != 8)).1 "t1"
      ∧ 8 ∈ (Broadcast [("t1", [7, 8, 9])] "t1" (fun c => c != 8)).2) := by
  have h := broadcast_prunes_failed [("t1", [7, 8, 9])] "t1" (fun c => c != 8) 8
    (by decide) (by decide)
  exact h.1 (by decide)

/-! ## Helper lemmas: registry rebuild -/

theorem mem_registryKeys_insert {P : Type} (reg : List (String × P)) (name : String)
    (p : P) (name' : String) :
    name' ∈ registryKeys (registryInsert reg name p)
      ↔ name' ∈ registryKeys reg ∨ name' = name := by
  induction reg with
  | nil => simp [registryInsert, registryKeys]
  | cons q rest ih =>
    simp only [registryInsert]
    by_cases hq : q.1 = name
    · rw [if_pos hq]
      simp only [registryKeys, List.map_cons, List.mem_cons] at ih ⊢
      rw [hq]
      tauto
    · rw [if_neg hq]
      simp only [registryKeys, List.map_cons, List.mem_cons] at ih ⊢
      rw [ih]
      tauto

theorem mem_keys_rebuild_fold {P : Type}
    (newGemini newOpenAI : ProviderConfig → Except String P) (l : List ProviderConfig) :
    ∀ (acc : List (String × P)) (name : String),
      name ∈ registryKeys acc →
      name ∈ registryKeys (l.foldl (rebuildStep newGemini newOpenAI) acc) := by
  induction l with
  | nil => intro acc name h; exact h
  | cons a rest ih =>
    intro acc name h
    simp only [List.foldl_cons]
    apply ih
    unfold rebuildStep
    cases hc : constructProvider newGemini newOpenAI a with
    | none => exact h
    | some e =>
      cases e with
      | error msg => exact h
      | ok p => exact (mem_registryKeys_insert acc a.providerName p name).mpr (Or.inl h)

theorem keys_rebuild_of_success {P : Type}
    (newGemini newOpenAI : ProviderConfig → Except String P) (l : List ProviderConfig) :
    ∀ (acc : List (String × P)) (cfg : ProviderConfig) (p : P),
      cfg ∈ l → constructProvider newGemini newOpenAI cfg = some (Except.ok p) →
      cfg.providerName ∈ registryKeys (l.foldl (rebuildStep newGemini newOpenAI) acc) := by
  induction l with
  | nil => intro acc cfg p h _; simp at h
  | cons a rest ih =>
    intro acc cfg p hmem hc
    simp only [List.foldl_cons]
    rcases List.mem_cons.mp hmem with h | h
    · subst h
      apply mem_keys_rebuild_fold
      unfold rebuildStep
      rw [hc]
      exact (mem_registryKeys_insert acc cfg.providerName p cfg.providerName).mpr
        (Or.inr rfl)
    · exact ih _ cfg p h hc

theorem keys_rebuild_sources {P : Type}
    (newGemini newOpenAI : ProviderConfig → Except String P) (l : List ProviderConfig) :
    ∀ (acc : List (String × P)) (name : String),
      name ∈ registryKeys (l.foldl (rebuildStep newGemini newOpenAI) acc) →
      name ∈ registryKeys acc
      ∨ ∃ cfg ∈ l, cfg.providerName = name
          ∧ ∃ p, constructProvider newGemini newOpenAI cfg = some (Except.ok p) := by
  induction l with
  | nil => intro acc name h; exact Or.inl h
  | cons a rest ih =>
    intro acc name h
    simp only [List.foldl_cons] at h
    rcases ih _ name h with h1 | h1
    · revert h1
      unfold rebuildStep
      cases hc : constructProvider newGemini newOpenAI a with
      | none => exact fun h1 => Or.inl h1
      | some e =>
        cases e with
        | error msg => exact fun h1 => Or.inl h1
        | ok p =>
          intro h1
          rcases (mem_registryKeys_insert acc a.providerName p name).mp h1 with h2 | h2
          · exact Or.inl h2
          · exact Or.inr ⟨a, List.mem_cons_self _ _, h2.symm, p, hc⟩
    · rcases h1 with ⟨cfg, hcfg, hname, p, hc⟩
      exact Or.inr ⟨cfg, List.mem_cons_of_mem _ hcfg, hname, p, hc⟩

/-- C4: registry reload never aborts on a single provider: with the
query succeeding it returns `ok` of the rebuilt registry, and it
returns an error exactly when the query of stored configurations fails;
every enabled configuration that constructs successfully has its name
in the rebuilt registry, and every name in the rebuilt registry comes
from some enabled configuration that constructed successfully — so
configurations with no constructor mapping or a failing constructor are
skipped without affecting the others. -/
theorem reload_partial_failure_isolation {P : Type}
    (newGemini newOpenAI : ProviderConfig → Except String P)
    (stored : List ProviderConfig) :
    InitProvidersReload newGemini newOpenAI stored none
      = Except.ok (rebuildRegistry newGemini newOpenAI
          (stored.filter (fun c => c.enabled)))
  ∧ (∀ e, InitProvidersReload newGemini newOpenAI stored (some e) = Except.error e)
  ∧ (∀ cfg ∈ stored, cfg.enabled = true →
       ∀ p, constructProvider newGemini newOpenAI cfg = some (Except.ok p) →
       cfg.providerName ∈ registryKeys
         (rebuildRegistry newGemini newOpenAI (stored.filter (fun c => c.enabled))))
  ∧ (∀ name ∈ registryKeys
         (rebuildRegistry newGemini newOpenAI (stored.filter (fun c => c.enabled))),
       ∃ cfg ∈ stored, cfg.enabled = true ∧ cfg.providerName = name
         ∧ ∃ p, constructProvider newGemini newOpenAI cfg = some (Except.ok p)) := by
  refine ⟨rfl, fun e => rfl, ?_, ?_⟩
  · intro cfg hmem hen p hc
    apply keys_rebuild_of_success newGemini newOpenAI _ _ cfg p _ hc
    exact List.mem_filter.mpr ⟨hmem, by simp [hen]⟩
  · intro name hname
    rcases keys_rebuild_sources newGemini newOpenAI _ _ name hname with h | h
    · simp [registryKeys] at h
    · rcases h with ⟨cfg, hcfg, hn, p, hc⟩
      have := List.mem_filter.mp hcfg
      exact ⟨cfg, this.1, by simpa using this.2, hn, p, hc⟩

/-- C4 witness: with a failing `openai` constructor and an unknown
provider name, reload still returns `ok` and activates `gemini`; a
query error is the only error outcome. -/
theorem reload_partial_failure_isolation_witness :
    InitProvidersReload (fun _ => Except.ok "G") (fun _ => Except.error "boom")
        [⟨"gemini", "gemini", "k", "", true, ""⟩,
         ⟨"openai", "openai", "k", "", true, ""⟩,
         ⟨"custom", "custom", "k", "", true, ""⟩] none
      = Except.ok [("gemini", "G")]
  ∧ InitProvidersReload (fun _ => Except.ok "G") (fun _ => Except.error "boom")
        [⟨"gemini", "gemini", "k", "", true, ""⟩,
         ⟨"openai", "openai", "k", "", true, ""⟩,
         ⟨"custom", "custom", "k", "", true, ""⟩] (some "db down")
      = Except.error "db down"
  ∧ "gemini" ∈ registryKeys (rebuildRegistry
        (fun _ => Except.ok "G") (fun _ => Except.error "boom")
        (([⟨"gemini", "gemini", "k", "", true, ""⟩,
           ⟨"openai", "openai", "k", "", true, ""⟩,
           ⟨"custom", "custom", "k", "", true, ""⟩] :
            List ProviderConfig).filter (fun c => c.enabled))) := by
  have h := reload_partial_failure_isolation
    (fun _ => Except.ok "G") (fun _ => Except.error "boom")
    [⟨"gemini", "gemini", "k", "", true, ""⟩,
     ⟨"openai", "openai", "k", "", true, ""⟩,
     ⟨"custom", "custom", "k", "", true, ""⟩]
  refine ⟨?_, h.2.1 "db down", ?_⟩
  · exact h.1.trans rfl
  · exact h.2.2.1 ⟨"gemini", "gemini", "k", "", true, ""⟩ (by decide) rfl "G" rfl
